import Mathlib

/-!
Shallow embedding of the polymarket_futures_arb repository.

The two components with nontrivial control flow are embedded from their
sources:

* the paginated keyword search loop, `main` in
  `Desktop/poly_arb/scripts/find_markets.py` (helpers `question_matches`,
  the per-record loop body, the per-page `for` loop and the cursor-driven
  `while` loop), and
* the price-snapshot fetch, `fetch_yes_mid` in
  `market_parity/adapters/polymarket.py`, together with the `PolySnapshot`
  dataclass from `Desktop/poly_arb/market_parity/domain/snapshots.py`.

JSON payloads are modelled by the inductive `JValue`; Python floats by `ℚ`;
the HTTP transport by functions from request parameters to already-parsed
response values (the scripts call `resp.raise_for_status()` first, so the
modelled runs are the ones where the transport succeeded); `print`-based
rendering by accumulating the rendered records in a list; exceptions by an
explicit error type `PyErr` threaded through `Except` or an `error` field.
`datetime.fromisoformat` is an external library call and is passed in as a
parameter `parseDate : List Char → Option PyDatetime` (`none` for a
`ValueError`; a successful parse is an integer timestamp tagged aware or
naive, since `fromisoformat` on an offset-free string returns a
timezone-naive datetime whose comparison with the aware `now` raises
`TypeError`); `str.casefold` is modelled per-character by `Char.toLower`.
-/

namespace PolyArb

/-- Parsed JSON values as Python objects: `None`, booleans, numbers
(floats modelled as rationals), strings (as character lists), lists and
dicts (association lists with string keys). -/
inductive JValue where
  | null
  | bool (b : Bool)
  | num (q : ℚ)
  | str (s : List Char)
  | arr (xs : List JValue)
  | obj (fields : List (List Char × JValue))

/-- Python exceptions that the embedded code can raise.  `noYesToken` is the
`ValueError("No YES token found for market ...")` raised by `fetch_yes_mid`
(the domain error; a `ValueError` instance in Python, distinguished from
`valueError` — a `float()` parse failure — by its message), and
`transportError` stands for `requests` failures / `raise_for_status`
(never produced by the embedded code itself, which models runs where the
transport succeeded). -/
inductive PyErr where
  | attributeError
  | typeError
  | keyError
  | indexError
  | valueError
  | noYesToken
  | transportError
deriving DecidableEq

/-- Python truthiness of a `JValue` (`bool(v)`). -/
def truthy : JValue → Bool
  | .null => false
  | .bool b => b
  | .num q => q ≠ 0
  | .str s => !s.isEmpty
  | .arr xs => !xs.isEmpty
  | .obj fs => !fs.isEmpty

/-- Python `d.get(k)`: `none` models the `None` default. -/
def dictGet (fields : List (List Char × JValue)) (key : List Char) : Option JValue :=
  (fields.find? (fun kv => kv.1 = key)).map (·.2)

/-- Python `d.get(k, default)`. -/
def dictGetD (fields : List (List Char × JValue)) (key : List Char) (d : JValue) : JValue :=
  (dictGet fields key).getD d

/-- Python iteration `for m in v`: lists yield their elements, strings yield
one-character strings, dicts yield their keys; other values raise
`TypeError` (modelled as `none`). -/
def iterValues : JValue → Option (List JValue)
  | .arr xs => some xs
  | .str s => some (s.map (fun c => .str [c]))
  | .obj fs => some (fs.map (fun kv => .str kv.1))
  | _ => none

/-- Model of `str.casefold`: per-character lowercasing. -/
def casefold (s : List Char) : List Char := s.map Char.toLower

/-- `str.replace(pat, rep)`: replace every non-overlapping occurrence of
`pat`, scanning left to right (used with `pat = "Z"`). -/
def strReplace (s pat rep : List Char) : List Char :=
  match s with
  | [] => []
  | c :: rest =>
    if pat ≠ [] ∧ pat.isPrefixOf (c :: rest) then
      rep ++ strReplace ((c :: rest).drop pat.length) pat rep
    else
      c :: strReplace rest pat rep
termination_by s.length
decreasing_by
  · simp only [List.length_drop, List.length_cons]
    rename_i h
    have hp : pat ≠ [] := h.1
    have : 1 ≤ pat.length := by
      cases pat with
      | nil => exact absurd rfl hp
      | cons a l => simp
    omega
  · simp

/-- The dict keys used by the scripts. -/
def activeKey : List Char := "active".toList

def questionKey : List Char := "question".toList

def conditionIdKey : List Char := "condition_id".toList

def endDateKey : List Char := "end_date_iso".toList

def dataKey : List Char := "data".toList

def nextCursorKey : List Char := "next_cursor".toList

def tokensKey : List Char := "tokens".toList

def outcomeKey : List Char := "outcome".toList

def tokenIdKey : List Char := "token_id".toList

def bidsKey : List Char := "bids".toList

def asksKey : List Char := "asks".toList

def priceKey : List Char := "price".toList

def yesStr : List Char := "YES".toList

def activeStr : List Char := "active".toList

def inactiveStr : List Char := "inactive".toList

/-- The `.replace("Z", "+00:00")` arguments of line 91 of
`scripts/find_markets.py`. -/
def zStr : List Char := "Z".toList

def utcOffsetStr : List Char := "+00:00".toList

/-- `question_matches` from `scripts/find_markets.py` (lines 48–51):
`q = (question or "").casefold()` — the identity on an actual string
argument, since `"" or ""` is `""` — then
`all(k.casefold() in q for k in keywords)`. -/
def question_matches (question : List Char) (keywords : List (List Char)) : Bool :=
  let q := casefold question
  keywords.all (fun k => decide (casefold k <:+: q))

/-- Result of a successful `datetime.fromisoformat` call: an integer
timestamp tagged with whether the parsed datetime is timezone-aware (the
string carried a UTC offset, e.g. after the `"Z" → "+00:00"` rewrite) or
naive (no offset in the string).  Python refuses to compare a naive
datetime with the aware `datetime.now(timezone.utc)` and raises
`TypeError`. -/
inductive PyDatetime where
  | aware (t : Int)
  | naive (t : Int)

/-- The timestamp of a parsed datetime. -/
def PyDatetime.ts : PyDatetime → Int
  | .aware t => t
  | .naive t => t

/-- The `end_label` computed on lines 102–107 of `scripts/find_markets.py`,
kept structured instead of formatted: which of the three f-string branches
was taken, and with which components. -/
inductive EndLabel where
  | unknownParse (iso : List Char)
  | na
  | labeled (iso : List Char) (future : Bool)

/-- The arguments `render_match` is called with on line 110 of
`scripts/find_markets.py` (`question` and `condition_id` are whatever
`m.get` returned). -/
structure MatchInfo where
  question : JValue
  condition_id : JValue
  status : List Char
  end_label : EndLabel

/-- One iteration of the `for m in markets` body of `main` in
`scripts/find_markets.py` (lines 76–113), for a single raw record `m`:
`.ok none` models `continue` (record skipped), `.ok (some info)` models a
rendered match, `.error e` models an uncaught exception raised by the body.
`parseDate` stands for `datetime.fromisoformat` (`none` for its
`ValueError`), `now` for `datetime.now(timezone.utc)`. -/
def processRecord (parseDate : List Char → Option PyDatetime) (now : Int)
    (keywords : List (List Char)) (m : JValue) : Except PyErr (Option MatchInfo) :=
  match m with
  | .obj fields =>
    -- if not isinstance(m, dict) or not m.get("active", False): continue
    if truthy (dictGetD fields activeKey (.bool false)) = false then .ok none
    else
      let question := dictGetD fields questionKey (.str [])
      let condition_id := dictGetD fields conditionIdKey (.str [])
      let end_date_iso := dictGetD fields endDateKey .null
      let status := if truthy (dictGetD fields activeKey (.bool false))
                    then activeStr else inactiveStr
      -- end_dt = None; if end_date_iso: try fromisoformat(end_date_iso.replace(...))
      -- except ValueError: end_dt = None.  A truthy non-string raises AttributeError.
      match (if truthy end_date_iso then
               match end_date_iso with
               | .str s => .ok (parseDate (strReplace s zStr utcOffsetStr))
               | _ => .error PyErr.attributeError
             else (.ok none : Except PyErr (Option PyDatetime))) with
      | .error e => .error e
      | .ok end_dt =>
        -- if end_dt is not None and end_dt < now: continue
        -- `now` is timezone-aware; comparing a naive parse with it raises an
        -- uncaught TypeError (only ValueError is caught, around the parse)
        match (match end_dt with
               | some (.aware t) => Except.ok (decide (t < now))
               | some (.naive _) => Except.error PyErr.typeError
               | none => (Except.ok false : Except PyErr Bool)) with
        | .error e => .error e
        | .ok expired =>
        if expired then .ok none
        else
          let end_label :=
            match end_dt, truthy end_date_iso with
            | none, true => EndLabel.unknownParse
                (match end_date_iso with | .str s => s | _ => [])
            | none, false => EndLabel.na
            -- the `some` arm is reachable only with an aware parse (a naive
            -- one raised at the line-98 comparison above, as in the source)
            | some dt, _ => EndLabel.labeled
                (match end_date_iso with | .str s => s | _ => []) (decide (now ≤ dt.ts))
          -- question_matches(question, keywords): `(question or "").casefold()`
          -- needs a string; a truthy non-string raises AttributeError.
          match (match (if truthy question then question else .str []) with
                 | .str s => Except.ok (question_matches s keywords)
                 | _ => .error PyErr.attributeError) with
          | .error e => .error e
          | .ok b =>
            if b then .ok (some ⟨question, condition_id, status, end_label⟩)
            else .ok none
  | _ => .ok none

/-- Outcome of running the `for m in markets` loop over (the rest of) a
page: the records rendered by it in order, the final value of the `matches`
counter, whether `return` was taken (`matches >= args.max_matches`), and
the exception raised if any (records rendered before the exception are
kept, since `render_match` printed them already). -/
structure PageResult where
  rendered : List MatchInfo
  cnt : Nat
  stop : Bool
  error : Option PyErr

/-- The `for m in markets` loop of `main` (lines 76–113), starting from a
given value of the `matches` counter (field `cnt` here). -/
def processPage (parseDate : List Char → Option PyDatetime) (now : Int)
    (keywords : List (List Char)) (maxMatches : Nat) :
    Nat → List JValue → PageResult
  | cnt, [] => ⟨[], cnt, false, none⟩
  | cnt, m :: rest =>
    match processRecord parseDate now keywords m with
    | .error e => ⟨[], cnt, false, some e⟩
    | .ok none => processPage parseDate now keywords maxMatches cnt rest
    | .ok (some info) =>
      -- render_match(...); matches += 1; if matches >= args.max_matches: return
      if maxMatches ≤ cnt + 1 then ⟨[info], cnt + 1, true, none⟩
      else
        let r := processPage parseDate now keywords maxMatches (cnt + 1) rest
        ⟨info :: r.rendered, r.cnt, r.stop, r.error⟩

/-- Observable outcome of the whole search: the records rendered in order,
the cursor value sent with each page fetch in order (`none` is the initial
request without `next_cursor`), and the uncaught exception if any. -/
structure SearchOutcome where
  rendered : List MatchInfo
  requests : List (Option JValue)
  error : Option PyErr

/-- The `while pages < args.max_pages` loop of `main` (lines 69–119).
`api` maps the cursor of a request to the parsed JSON of the (successful)
response; `fuel` is `args.max_pages - pages`, so the loop condition
`pages < max_pages` is `fuel ≠ 0`, checked before each fetch. -/
def searchGo (api : Option JValue → JValue) (parseDate : List Char → Option PyDatetime)
    (now : Int) (keywords : List (List Char)) (maxMatches : Nat) :
    Nat → Option JValue → Nat → SearchOutcome
  | 0, _, _ => ⟨[], [], none⟩
  | fuel + 1, cursor, cnt =>
    match api cursor with
    | .obj fields =>
      -- markets = data.get("data", []); for m in markets: ...
      match iterValues (dictGetD fields dataKey (.arr [])) with
      | some ms =>
        let pr := processPage parseDate now keywords maxMatches cnt ms
        match pr.error with
        | some e => ⟨pr.rendered, [cursor], some e⟩
        | none =>
          if pr.stop then ⟨pr.rendered, [cursor], none⟩
          else
            -- cursor = data.get("next_cursor"); if not cursor: break; pages += 1
            let cursor' := (dictGet fields nextCursorKey).getD .null
            if truthy cursor' then
              let rest := searchGo api parseDate now keywords maxMatches fuel
                  (some cursor') pr.cnt
              ⟨pr.rendered ++ rest.rendered, cursor :: rest.requests, rest.error⟩
            else ⟨pr.rendered, [cursor], none⟩
      | none => ⟨[], [cursor], some .typeError⟩
    | _ => ⟨[], [cursor], some .attributeError⟩

/-- The search of `main` in `scripts/find_markets.py`: cursor starts at
`None`, `matches = 0`, `pages = 0`. -/
def find_markets (api : Option JValue → JValue) (parseDate : List Char → Option PyDatetime)
    (now : Int) (keywords : List (List Char)) (maxMatches maxPages : Nat) :
    SearchOutcome :=
  searchGo api parseDate now keywords maxMatches maxPages none 0

/-- Python `isinstance(v, dict)`. -/
def isDict : JValue → Bool
  | .obj _ => true
  | _ => false

/-- A record that does not carry a truthy `active`: not a dict at all, or a
dict whose `active` is absent or falsy (the skip condition of lines 77–79
of `scripts/find_markets.py`, record-classification part). -/
def lacksActive : JValue → Bool
  | .obj fields => !truthy (dictGetD fields activeKey (.bool false))
  | _ => true

/-- Relation between two consecutive page requests of the search: the
response to `prev` was a dict whose `next_cursor` was truthy, and `next`
queries exactly that cursor (lines 115–119 of `scripts/find_markets.py`). -/
def cursorStep (api : Option JValue → JValue) (prev next : Option JValue) : Prop :=
  ∃ fields, api prev = JValue.obj fields ∧
    truthy ((dictGet fields nextCursorKey).getD JValue.null) = true ∧
    next = some ((dictGet fields nextCursorKey).getD JValue.null)

/-- The `PolySnapshot` dataclass from `domain/snapshots.py` (floats as `ℚ`). -/
structure PolySnapshot where
  market_id : List Char
  ts : List Char
  yes_bid : ℚ
  yes_ask : ℚ
  yes_mid : ℚ

/-- Lines 35–44 of `adapters/polymarket.py`: `yes_mid = (best_bid + best_ask) / 2`
and the `PolySnapshot(...)` construction (`ts` is `datetime.now(...).isoformat()`,
passed in). -/
def mkSnapshot (market_id ts : List Char) (bid ask : ℚ) : PolySnapshot :=
  { market_id := market_id, ts := ts, yes_bid := bid, yes_ask := ask,
    yes_mid := (bid + ask) / 2 }

/-- Value of a decimal digit character. -/
def digitVal (c : Char) : Nat := c.toNat - 48

/-- Natural number denoted by a list of digit characters. -/
def natOfDigits (cs : List Char) : Nat :=
  cs.foldl (fun acc c => acc * 10 + digitVal c) 0

/-- Decimal literals accepted by Python `float(...)` on strings, restricted
to plain sign/integer/fraction forms (the only shape book prices take):
`none` models the `ValueError` on anything else. -/
def parseDecimal (s : List Char) : Option ℚ :=
  let signed : Bool × List Char :=
    match s with
    | '-' :: rest => (true, rest)
    | '+' :: rest => (false, rest)
    | _ => (false, s)
  let body := signed.2
  let ip := body.takeWhile (fun c => c ≠ '.')
  let rest := body.dropWhile (fun c => c ≠ '.')
  let mag : Option ℚ :=
    match rest with
    | [] =>
      if ip ≠ [] ∧ ip.all Char.isDigit then some ((natOfDigits ip : ℚ)) else none
    | _ :: fp =>
      if (ip ≠ [] ∨ fp ≠ []) ∧ ip.all Char.isDigit ∧ fp.all Char.isDigit then
        some ((natOfDigits ip : ℚ) + (natOfDigits fp : ℚ) / (10 : ℚ) ^ fp.length)
      else none
  mag.map (fun q => if signed.1 then -q else q)

/-- Python `float(x)` for the values a book entry's `"price"` can hold. -/
def pyFloat : JValue → Except PyErr ℚ
  | .num q => .ok q
  | .bool b => .ok (if b then 1 else 0)
  | .str s =>
    match parseDecimal s with
    | some q => .ok q
    | none => .error .valueError
  | _ => .error .typeError

/-- Python subscript `v[0]`. -/
def pyIndex0 : JValue → Except PyErr JValue
  | .arr (x :: _) => .ok x
  | .arr [] => .error .indexError
  | .str (c :: _) => .ok (.str [c])
  | .str [] => .error .indexError
  | .obj _ => .error .keyError
  | _ => .error .typeError

/-- Python subscript `v[key]` with a string key. -/
def pySubscript (v : JValue) (key : List Char) : Except PyErr JValue :=
  match v with
  | .obj fields =>
    match dictGet fields key with
    | some x => .ok x
    | none => .error .keyError
  | _ => .error .typeError

/-- Step 2 of `fetch_yes_mid` (lines 19–23): scan `market.get("tokens", [])`
for the first token with `token.get("outcome") == "YES"` (Python `==` with a
string is structural string equality, `False` against any non-string) and
read `token["token_id"]` — an unguarded subscript, so a missing `token_id`
raises `KeyError`.  `.ok none` means the loop fell through with
`yes_token_id` still `None`. -/
def findYesTokenId : List JValue → Except PyErr (Option JValue)
  | [] => .ok none
  | t :: rest =>
    match t with
    | .obj fields =>
      if (match (dictGet fields outcomeKey).getD .null with
          | .str s => decide (s = yesStr)
          | _ => false) then
        match dictGet fields tokenIdKey with
        | some v => .ok (some v)
        | none => .error .keyError
      else findYesTokenId rest
    | _ => .error .attributeError

/-- Line 33 of `adapters/polymarket.py`:
`best_bid = float(book["bids"][0]["price"]) if book.get("bids") else 0.0`
(when the `get` is truthy the key is present with that same value, so
`book["bids"]` is it). -/
def bestBid (bfields : List (List Char × JValue)) : Except PyErr ℚ :=
  let bids := (dictGet bfields bidsKey).getD .null
  if truthy bids then
    match pyIndex0 bids with
    | .error e => .error e
    | .ok entry =>
      match pySubscript entry priceKey with
      | .error e => .error e
      | .ok p => pyFloat p
  else .ok 0

/-- Line 34: `best_ask = float(book["asks"][0]["price"]) if book.get("asks") else 1.0`. -/
def bestAsk (bfields : List (List Char × JValue)) : Except PyErr ℚ :=
  let asks := (dictGet bfields asksKey).getD .null
  if truthy asks then
    match pyIndex0 asks with
    | .error e => .error e
    | .ok entry =>
      match pySubscript entry priceKey with
      | .error e => .error e
      | .ok p => pyFloat p
  else .ok 1

/-- Step 2 of `fetch_yes_mid`, applied to the whole market response:
`for token in market.get("tokens", []): ...` (a non-dict response makes
`.get` raise `AttributeError`; a non-iterable `tokens` makes `for` raise
`TypeError`). -/
def scanTokens (market : JValue) : Except PyErr (Option JValue) :=
  match market with
  | .obj mfields =>
    match iterValues (dictGetD mfields tokensKey (.arr [])) with
    | some toks => findYesTokenId toks
    | none => .error .typeError
  | _ => .error .attributeError

/-- Steps 3–5 of `fetch_yes_mid` (lines 28–44), given the parsed book
response: extract best bid and ask and build the snapshot. -/
def fetchBook (book : JValue) (nowIso market_id : List Char) :
    Except PyErr PolySnapshot :=
  match book with
  | .obj bfields =>
    match bestBid bfields with
    | .error e => .error e
    | .ok bid =>
      match bestAsk bfields with
      | .error e => .error e
      | .ok ask => .ok (mkSnapshot market_id nowIso bid ask)
  | _ => .error .attributeError

/-- `fetch_yes_mid` from `adapters/polymarket.py`.  `market` is the parsed
JSON of the (successful) `GET /markets/{market_id}` response and `bookApi`
maps a token id to the parsed JSON of the `GET /book?token_id=...`
response; `nowIso` stands for `datetime.now(timezone.utc).isoformat()`.
The second component records the token ids for which a book fetch was
issued, in order. -/
def fetch_yes_mid (market : JValue) (bookApi : JValue → JValue)
    (nowIso market_id : List Char) :
    Except PyErr PolySnapshot × List JValue :=
  match scanTokens market with
  | .error e => (.error e, [])
  | .ok none => (.error .noYesToken, [])
  | .ok (some tokenId) => (fetchBook (bookApi tokenId) nowIso market_id, [tokenId])

/-! ## Theorems -/

/-- C2: for every keyword collection `K` and question string `Q`,
`question_matches Q K` is true if and only if every keyword in `K` is a
case-insensitive substring of `Q` (casefolded containment); in particular,
when `K` is empty the predicate is true for every `Q`. -/
theorem C2_question_matches_iff (Q : List Char) (K : List (List Char)) :
    (question_matches Q K = true ↔ ∀ k ∈ K, casefold k <:+: casefold Q) ∧
    (K = [] → question_matches Q K = true) := by
  constructor
  · simp [question_matches]
  · rintro rfl
    simp [question_matches]

/-- Witness for C2 at a concrete question and keyword list. -/
theorem C2_question_matches_iff_witness :
    question_matches "Will the Fed cut rates?".toList
      ["fed".toList, "CUT".toList] = true :=
  (C2_question_matches_iff "Will the Fed cut rates?".toList
    ["fed".toList, "CUT".toList]).1.mpr (by decide)

/-- C7: when the extracted best bid and best ask (including the `0.0`/`1.0`
defaults) both lie in `[0, 1]` and the bid is at most the ask, the
constructed snapshot satisfies `0 ≤ yes_bid ≤ yes_mid ≤ yes_ask ≤ 1`. -/
theorem C7_snapshot_invariant (i ts : List Char) (bid ask : ℚ)
    (h0 : 0 ≤ bid) (hba : bid ≤ ask) (h1 : ask ≤ 1) :
    0 ≤ (mkSnapshot i ts bid ask).yes_bid ∧
    (mkSnapshot i ts bid ask).yes_bid ≤ (mkSnapshot i ts bid ask).yes_mid ∧
    (mkSnapshot i ts bid ask).yes_mid ≤ (mkSnapshot i ts bid ask).yes_ask ∧
    (mkSnapshot i ts bid ask).yes_ask ≤ 1 := by
  refine ⟨h0, ?_, ?_, h1⟩ <;> simp only [mkSnapshot] <;> linarith

/-- Witness for C7 at the defaulted-bid book of the spec scenario
(`bid = 0`, `ask = 0.7`). -/
theorem C7_snapshot_invariant_witness :
    ((0 : ℚ) ≤ 0 ∧ (0 : ℚ) ≤ 7 / 10 ∧ (7 / 10 : ℚ) ≤ 1) ∧
    (0 ≤ (mkSnapshot [] [] 0 (7 / 10)).yes_bid ∧
     (mkSnapshot [] [] 0 (7 / 10)).yes_bid ≤ (mkSnapshot [] [] 0 (7 / 10)).yes_mid ∧
     (mkSnapshot [] [] 0 (7 / 10)).yes_mid ≤ (mkSnapshot [] [] 0 (7 / 10)).yes_ask ∧
     (mkSnapshot [] [] 0 (7 / 10)).yes_ask ≤ 1) :=
  ⟨by norm_num,
   C7_snapshot_invariant [] [] 0 (7 / 10) (by norm_num) (by norm_num) (by norm_num)⟩

/-- C10: for the market response whose tokens list has one entry with
outcome exactly `"YES"` but no `token_id` field, `fetch_yes_mid` raises
`KeyError` — which is neither the no-YES-token domain error nor a
transport error — and does so before any book fetch (the unguarded
`token["token_id"]` subscript, in contrast to the guarded `.get` used for
`outcome`). -/
theorem C10_missing_token_id_keyerror :
    (fetch_yes_mid
        (JValue.obj [(tokensKey, JValue.arr [JValue.obj [(outcomeKey, JValue.str yesStr)]])])
        (fun _ => JValue.null) [] []).1 = .error .keyError ∧
    (fetch_yes_mid
        (JValue.obj [(tokensKey, JValue.arr [JValue.obj [(outcomeKey, JValue.str yesStr)]])])
        (fun _ => JValue.null) [] []).2 = [] ∧
    PyErr.keyError ≠ PyErr.noYesToken ∧
    PyErr.keyError ≠ PyErr.transportError := by
  refine ⟨rfl, rfl, by decide, by decide⟩

/-- C8: a record that does not carry a truthy `active` (not a dict, or the
field is absent or falsy) is never included: its loop iteration skips it,
and a page consisting only of such records renders nothing, regardless of
keyword matches. -/
theorem C8_inactive_never_included (pd : List Char → Option PyDatetime) (now : Int)
    (kw : List (List Char)) :
    (∀ m, lacksActive m = true → processRecord pd now kw m = .ok none) ∧
    (∀ maxM cnt ms, (∀ m ∈ ms, lacksActive m = true) →
      processPage pd now kw maxM cnt ms = ⟨[], cnt, false, none⟩) := by
  have hrec : ∀ m, lacksActive m = true → processRecord pd now kw m = .ok none := by
    intro m hm
    cases m with
    | obj fields =>
      simp only [lacksActive, Bool.not_eq_true'] at hm
      simp [processRecord, hm]
    | null => rfl
    | bool b => rfl
    | num q => rfl
    | str s => rfl
    | arr xs => rfl
  refine ⟨hrec, ?_⟩
  intro maxM cnt ms h
  induction ms with
  | nil => rfl
  | cons m rest ih =>
    have h1 : lacksActive m = true := h m (List.mem_cons_self m rest)
    have h2 : ∀ m' ∈ rest, lacksActive m' = true := fun m' hm' => h m' (List.mem_cons_of_mem m hm')
    simp [processPage, hrec m h1, ih h2]

/-- Witness for C8 at a concrete inactive record. -/
theorem C8_inactive_never_included_witness :
    lacksActive (JValue.obj [(activeKey, JValue.bool false)]) = true ∧
    processRecord (fun _ => none) 0 []
      (JValue.obj [(activeKey, JValue.bool false)]) = .ok none :=
  ⟨by decide,
   (C8_inactive_never_included (fun _ => none) 0 []).1
     (JValue.obj [(activeKey, JValue.bool false)]) (by decide)⟩

/-- C3 counterexample: the claim that every record whose end-date parses
to a valid timestamp strictly before now is excluded is false.  An
end-date string without a UTC offset (the `"Z" → "+00:00"` rewrite only
rescues `Z`-suffixed strings) parses successfully to a timezone-NAIVE
datetime, and the `end_dt < now` comparison on line 98 then raises an
uncaught TypeError (only ValueError is caught, and only around the
parse): the search crashes instead of skipping the record.  Here the
parse oracle returns a naive timestamp before `now = 0` for the record's
end-date string. -/
theorem C3_counterexample :
    processRecord (fun _ => some (.naive (-5))) 0 []
      (.obj [(activeKey, JValue.bool true), (endDateKey, JValue.str "X".toList)]) =
      .error .typeError ∧
    (Except.error PyErr.typeError : Except PyErr (Option MatchInfo)) ≠ .ok none :=
  ⟨rfl, by simp⟩

/-- C3 amended: for an active record, (a) a present end-date string that
parses to an offset-AWARE timestamp strictly before `now` makes the loop
skip the record; (a2) a present end-date string that parses to a NAIVE
timestamp makes the loop body raise an uncaught TypeError at the
`end_dt < now` comparison, aborting the search (the record is neither
kept nor silently skipped); (b) a present end-date string that fails to
parse does NOT exclude the record, which is rendered exactly when the
keywords match (fail-open); (c) an absent (or falsy) end-date likewise
does not exclude the record. -/
theorem C3_recency_filter (pd : List Char → Option PyDatetime) (now : Int)
    (kw : List (List Char)) (fields : List (List Char × JValue))
    (s qs : List Char)
    (hact : truthy (dictGetD fields activeKey (.bool false)) = true)
    (hq : dictGetD fields questionKey (.str []) = .str qs) :
    (∀ t, dictGetD fields endDateKey .null = .str s → s ≠ [] →
      pd (strReplace s zStr utcOffsetStr) = some (.aware t) → t < now →
      processRecord pd now kw (.obj fields) = .ok none) ∧
    (∀ t, dictGetD fields endDateKey .null = .str s → s ≠ [] →
      pd (strReplace s zStr utcOffsetStr) = some (.naive t) →
      processRecord pd now kw (.obj fields) = .error .typeError) ∧
    (dictGetD fields endDateKey .null = .str s → s ≠ [] →
      pd (strReplace s zStr utcOffsetStr) = none →
      (processRecord pd now kw (.obj fields) =
        .ok (some ⟨.str qs, dictGetD fields conditionIdKey (.str []), activeStr,
          .unknownParse s⟩) ↔ question_matches qs kw = true)) ∧
    (truthy (dictGetD fields endDateKey .null) = false →
      (processRecord pd now kw (.obj fields) =
        .ok (some ⟨.str qs, dictGetD fields conditionIdKey (.str []), activeStr,
          .na⟩) ↔ question_matches qs kw = true)) := by
  have hts : s ≠ [] → truthy (.str s) = true := by
    intro h
    simp [truthy, h]
  have hse : s ≠ [] → s.isEmpty = false := by
    intro h
    simp [h]
  refine ⟨?_, ?_, ?_, ?_⟩
  · intro t hEnd hs hparse hlt
    simp [processRecord, hact, hEnd, hts hs, hparse, hlt]
  · intro t hEnd hs hparse
    simp [processRecord, hact, hEnd, hts hs, hparse]
  · intro hEnd hs hparse
    cases hqm : question_matches qs kw with
    | true =>
      cases qs with
      | nil => simp_all [processRecord, hact, hEnd, hts hs, hse hs, hparse, hq, truthy]
      | cons c cs => simp_all [processRecord, hact, hEnd, hts hs, hse hs, hparse, hq, truthy]
    | false =>
      cases qs with
      | nil => simp_all [processRecord, hact, hEnd, hts hs, hse hs, hparse, hq, truthy]
      | cons c cs => simp_all [processRecord, hact, hEnd, hts hs, hse hs, hparse, hq, truthy]
  · intro hEndF
    cases hqm : question_matches qs kw with
    | true =>
      cases qs with
      | nil => simp_all [processRecord, hact, hEndF, hq, truthy]
      | cons c cs => simp_all [processRecord, hact, hEndF, hq, truthy]
    | false =>
      cases qs with
      | nil => simp_all [processRecord, hact, hEndF, hq, truthy]
      | cons c cs => simp_all [processRecord, hact, hEndF, hq, truthy]

/-- Witness for C3: an active record whose end-date parses to an aware
timestamp strictly before now is skipped. -/
theorem C3_recency_filter_witness :
    truthy (dictGetD [(activeKey, JValue.bool true), (endDateKey, JValue.str "X".toList)]
      activeKey (.bool false)) = true ∧
    dictGetD [(activeKey, JValue.bool true), (endDateKey, JValue.str "X".toList)]
      questionKey (.str []) = .str [] ∧
    processRecord (fun _ => some (.aware (-5))) 0 []
      (.obj [(activeKey, JValue.bool true), (endDateKey, JValue.str "X".toList)]) =
      .ok none :=
  ⟨by decide, by rfl,
   (C3_recency_filter (fun _ => some (.aware (-5))) 0 []
      [(activeKey, JValue.bool true), (endDateKey, JValue.str "X".toList)]
      "X".toList [] (by decide) (by rfl)).1 (-5) rfl (by decide) rfl (by decide)⟩

/-- C4 counterexample: the claim that per-record processing never raises is
false.  The record `{"active": true, "end_date_iso": 5}` is a well-formed
dict, yet the loop body evaluates `end_date_iso.replace("Z", "+00:00")` on
the integer `5` and raises `AttributeError` (only `ValueError` is caught),
aborting the whole search. -/
theorem C4_counterexample :
    processRecord (fun _ => none) 0 []
      (.obj [(activeKey, JValue.bool true), (endDateKey, JValue.num 5)]) =
      .error .attributeError := by
  rfl

/-- C4 amended: a record value that is not a well-formed dict is silently
skipped and never raises; and per-record processing is total on dict
records whose `question` field is a string whenever truthy and whose
`end_date_iso`, whenever truthy, is a string that either fails to parse or
parses to an offset-aware timestamp — but it is not total on arbitrary
field values: a truthy non-string `end_date_iso` raises `AttributeError`
(see the counterexample) and a naive parse raises `TypeError` at the
`end_dt < now` comparison. -/
theorem C4_amended_malformed_skip :
    (∀ pd now kw v, isDict v = false →
      processRecord pd now kw v = .ok none) ∧
    (∀ (pd : List Char → Option PyDatetime) (now : Int) (kw : List (List Char)) fields,
      (truthy (dictGetD fields questionKey (.str [])) = true →
        ∃ s, dictGetD fields questionKey (.str []) = .str s) →
      (truthy (dictGetD fields endDateKey .null) = true →
        ∃ s, dictGetD fields endDateKey .null = .str s ∧
          (pd (strReplace s zStr utcOffsetStr) = none ∨
           ∃ t, pd (strReplace s zStr utcOffsetStr) = some (.aware t))) →
      ∀ e, processRecord pd now kw (.obj fields) ≠ .error e) := by
  constructor
  · intro pd now kw v hv
    cases v with
    | obj fields => simp [isDict] at hv
    | null => rfl
    | bool b => rfl
    | num q => rfl
    | str s => rfl
    | arr xs => rfl
  · intro pd now kw fields hqh heh e
    cases ha : truthy (dictGetD fields activeKey (.bool false)) with
    | false => simp [processRecord, ha]
    | true =>
      have hqb : ∃ s : List Char,
          (if truthy (dictGetD fields questionKey (.str [])) then
            dictGetD fields questionKey (.str []) else .str []) = .str s := by
        cases hq' : truthy (dictGetD fields questionKey (.str [])) with
        | false => exact ⟨[], by simp⟩
        | true =>
          obtain ⟨s, hs⟩ := hqh hq'
          exact ⟨s, by simp [hs]⟩
      obtain ⟨sq, hsq⟩ := hqb
      cases he' : truthy (dictGetD fields endDateKey .null) with
      | false =>
        cases hb : question_matches sq kw with
        | false => simp [processRecord, ha, he', hsq, hb]
        | true => simp [processRecord, ha, he', hsq, hb]
      | true =>
        obtain ⟨s, hs, hpar⟩ := heh he'
        have he2 : truthy (JValue.str s) = true := hs ▸ he'
        rcases hpar with hp | ⟨t, hp⟩
        · cases hb : question_matches sq kw with
          | false => simp [processRecord, ha, he', hs, he2, hp, hsq, hb]
          | true => simp [processRecord, ha, he', hs, he2, hp, hsq, hb]
        · by_cases hlt : t < now
          · simp [processRecord, ha, he', hs, he2, hp, hsq, hlt]
          · cases hb : question_matches sq kw with
            | false => simp [processRecord, ha, he', hs, he2, hp, hsq, hlt, hb]
            | true => simp [processRecord, ha, he', hs, he2, hp, hsq, hlt, hb]

/-- Witness for C4's amended theorem: a non-dict record is skipped without
error, and a well-typed dict record is processed without error. -/
theorem C4_amended_malformed_skip_witness :
    isDict (JValue.num 3) = false ∧
    processRecord (fun _ => none) 0 [] (JValue.num 3) = .ok none ∧
    processRecord (fun _ => none) 0 []
      (.obj [(activeKey, JValue.bool true)]) ≠ .error .attributeError :=
  ⟨by decide,
   C4_amended_malformed_skip.1 (fun _ => none) 0 [] (JValue.num 3) (by decide),
   C4_amended_malformed_skip.2 (fun _ => none) 0 [] [(activeKey, JValue.bool true)]
     (by intro h; exact absurd h (by decide))
     (by intro h; exact absurd h (by decide)) .attributeError⟩

/-- Helper: any successful book stage yields a snapshot whose mid is the
average of its bid and ask. -/
theorem fetchBook_ok_mid (book : JValue) (nowIso market_id : List Char)
    (snap : PolySnapshot) (h : fetchBook book nowIso market_id = .ok snap) :
    snap.yes_mid = (snap.yes_bid + snap.yes_ask) / 2 := by
  cases book with
  | obj bf =>
    cases h1 : bestBid bf with
    | error e => simp [fetchBook, h1] at h
    | ok bid =>
      cases h2 : bestAsk bf with
      | error e => simp [fetchBook, h1, h2] at h
      | ok ask =>
        simp only [fetchBook, h1, h2, Except.ok.injEq] at h
        subst h
        simp [mkSnapshot]
  | null => simp [fetchBook] at h
  | bool b => simp [fetchBook] at h
  | num q => simp [fetchBook] at h
  | str st => simp [fetchBook] at h
  | arr xs => simp [fetchBook] at h

/-- C6: the snapshot's `yes_bid` is the price of the book's first bid entry
when bids exist and `0.0` otherwise; `yes_ask` is the price of the first
ask entry when asks exist and `1.0` otherwise; and every snapshot returned
by `fetch_yes_mid` has `yes_mid` exactly `(yes_bid + yes_ask) / 2`,
including when one or both sides were defaulted. -/
theorem C6_book_defaults_and_mid :
    (∀ bf, truthy ((dictGet bf bidsKey).getD .null) = false → bestBid bf = .ok 0) ∧
    (∀ bf, truthy ((dictGet bf asksKey).getD .null) = false → bestAsk bf = .ok 1) ∧
    (∀ bf ef r p q, (dictGet bf bidsKey).getD .null = .arr (.obj ef :: r) →
      dictGet ef priceKey = some p → pyFloat p = .ok q → bestBid bf = .ok q) ∧
    (∀ bf ef r p q, (dictGet bf asksKey).getD .null = .arr (.obj ef :: r) →
      dictGet ef priceKey = some p → pyFloat p = .ok q → bestAsk bf = .ok q) ∧
    (∀ market bookApi nowIso market_id snap fetched,
      fetch_yes_mid market bookApi nowIso market_id = (.ok snap, fetched) →
      snap.yes_mid = (snap.yes_bid + snap.yes_ask) / 2) := by
  refine ⟨?_, ?_, ?_, ?_, ?_⟩
  · intro bf h
    simp [bestBid, h]
  · intro bf h
    simp [bestAsk, h]
  · intro bf ef r p q h1 h2 h3
    simp [bestBid, h1, truthy, pyIndex0, pySubscript, h2, h3]
  · intro bf ef r p q h1 h2 h3
    simp [bestAsk, h1, truthy, pyIndex0, pySubscript, h2, h3]
  · intro market bookApi nowIso market_id snap fetched h
    cases hs : scanTokens market with
    | error e => simp [fetch_yes_mid, hs] at h
    | ok o =>
      cases o with
      | none => simp [fetch_yes_mid, hs] at h
      | some tid =>
        simp only [fetch_yes_mid, hs, Prod.mk.injEq] at h
        exact fetchBook_ok_mid (bookApi tid) nowIso market_id snap h.1

/-- Witness for C6 at the spec scenario `bids=[]`, `asks=[{"price": "0.7"}]`
(defaulted bid, parsed ask), and a fully defaulted book for the mid
property. -/
theorem C6_book_defaults_and_mid_witness :
    truthy ((dictGet [(bidsKey, JValue.arr []),
        (asksKey, JValue.arr [JValue.obj [(priceKey, JValue.str "0.7".toList)]])]
      bidsKey).getD .null) = false ∧
    bestBid [(bidsKey, JValue.arr []),
        (asksKey, JValue.arr [JValue.obj [(priceKey, JValue.str "0.7".toList)]])] = .ok 0 ∧
    bestAsk [(bidsKey, JValue.arr []),
        (asksKey, JValue.arr [JValue.obj [(priceKey, JValue.str "0.7".toList)]])] =
      .ok (7 / 10) ∧
    (mkSnapshot [] [] 0 1).yes_mid =
      ((mkSnapshot [] [] 0 1).yes_bid + (mkSnapshot [] [] 0 1).yes_ask) / 2 :=
  ⟨rfl,
   C6_book_defaults_and_mid.1 _ rfl,
   C6_book_defaults_and_mid.2.2.2.1 _
     [(priceKey, JValue.str "0.7".toList)] [] (JValue.str "0.7".toList) (7 / 10)
     rfl rfl
     (by
       have h1 : pyFloat (JValue.str "0.7".toList) =
           .ok (((0 : ℕ) : ℚ) + ((7 : ℕ) : ℚ) / 10 ^ 1) := by rfl
       rw [h1]
       norm_num),
   C6_book_defaults_and_mid.2.2.2.2
     (JValue.obj [(tokensKey, JValue.arr [JValue.obj
        [(outcomeKey, JValue.str yesStr), (tokenIdKey, JValue.str "42".toList)]])])
     (fun _ => JValue.obj []) [] [] (mkSnapshot [] [] 0 1) [JValue.str "42".toList]
     (by rfl)⟩

/-- Helper: the final `matches` counter equals its start value plus the
number of records the page loop rendered. -/
theorem processPage_cnt (pd : List Char → Option PyDatetime) (now : Int)
    (kw : List (List Char)) (maxM : Nat) :
    ∀ ms cnt, (processPage pd now kw maxM cnt ms).cnt
      = cnt + (processPage pd now kw maxM cnt ms).rendered.length := by
  intro ms
  induction ms with
  | nil => intro cnt; simp [processPage]
  | cons m rest ih =>
    intro cnt
    cases hr : processRecord pd now kw m with
    | error e => simp [processPage, hr]
    | ok o =>
      cases o with
      | none => simp [processPage, hr, ih cnt]
      | some info =>
        by_cases hle : maxM ≤ cnt + 1
        · simp [processPage, hr, hle]
        · have := ih (cnt + 1)
          simp [processPage, hr, hle]
          omega

/-- Helper: starting below `max_matches`, the page loop never pushes the
counter above it. -/
theorem processPage_cnt_le (pd : List Char → Option PyDatetime) (now : Int)
    (kw : List (List Char)) (maxM : Nat) :
    ∀ ms cnt, cnt < maxM → (processPage pd now kw maxM cnt ms).cnt ≤ maxM := by
  intro ms
  induction ms with
  | nil => intro cnt h; simpa [processPage] using Nat.le_of_lt h
  | cons m rest ih =>
    intro cnt h
    cases hr : processRecord pd now kw m with
    | error e => simp [processPage, hr]; omega
    | ok o =>
      cases o with
      | none => simpa [processPage, hr] using ih cnt h
      | some info =>
        by_cases hle : maxM ≤ cnt + 1
        · simp [processPage, hr, hle]; omega
        · simpa [processPage, hr, hle] using ih (cnt + 1) (by omega)

/-- Helper: if the page loop did not trigger the early `return`, the
counter is still strictly below `max_matches`. -/
theorem processPage_not_stop_lt (pd : List Char → Option PyDatetime) (now : Int)
    (kw : List (List Char)) (maxM : Nat) :
    ∀ ms cnt, cnt < maxM → (processPage pd now kw maxM cnt ms).stop = false →
      (processPage pd now kw maxM cnt ms).cnt < maxM := by
  intro ms
  induction ms with
  | nil => intro cnt h _; simpa [processPage] using h
  | cons m rest ih =>
    intro cnt h hs
    cases hr : processRecord pd now kw m with
    | error e => simp [processPage, hr]; omega
    | ok o =>
      cases o with
      | none =>
        simp only [processPage, hr] at hs ⊢
        exact ih cnt h hs
      | some info =>
        by_cases hle : maxM ≤ cnt + 1
        · simp [processPage, hr, hle] at hs
        · simp only [processPage, hr, hle, if_false] at hs ⊢
          exact ih (cnt + 1) (by omega) hs

/-- Helper: once the early `return` fires, records appended after that
point on the same page are never examined (the result is unchanged). -/
theorem processPage_stop_append (pd : List Char → Option PyDatetime) (now : Int)
    (kw : List (List Char)) (maxM : Nat) :
    ∀ ms cnt extra, (processPage pd now kw maxM cnt ms).stop = true →
      processPage pd now kw maxM cnt (ms ++ extra) =
        processPage pd now kw maxM cnt ms := by
  intro ms
  induction ms with
  | nil => intro cnt extra h; simp [processPage] at h
  | cons m rest ih =>
    intro cnt extra h
    rw [List.cons_append]
    cases hr : processRecord pd now kw m with
    | error e => simp [processPage, hr] at h
    | ok o =>
      cases o with
      | none =>
        simp only [processPage, hr] at h ⊢
        exact ih cnt extra h
      | some info =>
        by_cases hle : maxM ≤ cnt + 1
        · simp [processPage, hr, hle]
        · simp only [processPage, hr, hle, if_false] at h ⊢
          rw [ih (cnt + 1) extra h]

/-- Helper: the loop issues at most one page fetch per unit of remaining
page budget (`fuel = max_pages - pages`). -/
theorem searchGo_requests_le (api : Option JValue → JValue)
    (pd : List Char → Option PyDatetime) (now : Int) (kw : List (List Char)) (maxM : Nat) :
    ∀ fuel cursor cnt,
      (searchGo api pd now kw maxM fuel cursor cnt).requests.length ≤ fuel := by
  intro fuel
  induction fuel with
  | zero => intro cursor cnt; simp [searchGo]
  | succ fuel ih =>
    intro cursor cnt
    cases ha : api cursor with
    | obj fields =>
      cases hiv : iterValues (dictGetD fields dataKey (.arr [])) with
      | none => simp [searchGo, ha, hiv]
      | some ms =>
        cases hpe : (processPage pd now kw maxM cnt ms).error with
        | some e => simp [searchGo, ha, hiv, hpe]
        | none =>
          cases hst : (processPage pd now kw maxM cnt ms).stop with
          | true => simp [searchGo, ha, hiv, hpe, hst]
          | false =>
            by_cases hc : truthy ((dictGet fields nextCursorKey).getD .null) = true
            · have := ih (some ((dictGet fields nextCursorKey).getD .null))
                (processPage pd now kw maxM cnt ms).cnt
              simp [searchGo, ha, hiv, hpe, hst, hc]
              omega
            · simp [searchGo, ha, hiv, hpe, hst, hc]
    | null => simp [searchGo, ha]
    | bool b => simp [searchGo, ha]
    | num q => simp [searchGo, ha]
    | str s => simp [searchGo, ha]
    | arr xs => simp [searchGo, ha]

/-- Helper: starting below `max_matches`, the whole loop renders at most
`max_matches - cnt` further records. -/
theorem searchGo_rendered_le (api : Option JValue → JValue)
    (pd : List Char → Option PyDatetime) (now : Int) (kw : List (List Char)) (maxM : Nat) :
    ∀ fuel cursor cnt, cnt < maxM →
      (searchGo api pd now kw maxM fuel cursor cnt).rendered.length + cnt ≤ maxM := by
  intro fuel
  induction fuel with
  | zero => intro cursor cnt h; simp [searchGo]; omega
  | succ fuel ih =>
    intro cursor cnt h
    cases ha : api cursor with
    | obj fields =>
      cases hiv : iterValues (dictGetD fields dataKey (.arr [])) with
      | none => simp [searchGo, ha, hiv]; omega
      | some ms =>
        have hcnt := processPage_cnt pd now kw maxM ms cnt
        have hcle := processPage_cnt_le pd now kw maxM ms cnt h
        cases hpe : (processPage pd now kw maxM cnt ms).error with
        | some e => simp [searchGo, ha, hiv, hpe]; omega
        | none =>
          cases hst : (processPage pd now kw maxM cnt ms).stop with
          | true => simp [searchGo, ha, hiv, hpe, hst]; omega
          | false =>
            by_cases hc : truthy ((dictGet fields nextCursorKey).getD .null) = true
            · have hlt := processPage_not_stop_lt pd now kw maxM ms cnt h hst
              have hrest := ih (some ((dictGet fields nextCursorKey).getD .null))
                (processPage pd now kw maxM cnt ms).cnt hlt
              simp [searchGo, ha, hiv, hpe, hst, hc]
              omega
            · simp [searchGo, ha, hiv, hpe, hst, hc]; omega
    | null => simp [searchGo, ha]; omega
    | bool b => simp [searchGo, ha]; omega
    | num q => simp [searchGo, ha]; omega
    | str s => simp [searchGo, ha]; omega
    | arr xs => simp [searchGo, ha]; omega

/-- Helper: with fuel left, the first page fetch uses the current cursor. -/
theorem searchGo_requests_head (api : Option JValue → JValue)
    (pd : List Char → Option PyDatetime) (now : Int) (kw : List (List Char)) (maxM : Nat)
    (fuel : Nat) (cursor : Option JValue) (cnt : Nat) (h : fuel ≠ 0) :
    ∃ t, (searchGo api pd now kw maxM fuel cursor cnt).requests = cursor :: t := by
  cases fuel with
  | zero => exact absurd rfl h
  | succ fuel =>
    cases ha : api cursor with
    | obj fields =>
      cases hiv : iterValues (dictGetD fields dataKey (.arr [])) with
      | none => exact ⟨[], by simp [searchGo, ha, hiv]⟩
      | some ms =>
        cases hpe : (processPage pd now kw maxM cnt ms).error with
        | some e => exact ⟨[], by simp [searchGo, ha, hiv, hpe]⟩
        | none =>
          cases hst : (processPage pd now kw maxM cnt ms).stop with
          | true => exact ⟨[], by simp [searchGo, ha, hiv, hpe, hst]⟩
          | false =>
            by_cases hc : truthy ((dictGet fields nextCursorKey).getD .null) = true
            · exact ⟨(searchGo api pd now kw maxM fuel
                  (some ((dictGet fields nextCursorKey).getD .null))
                  (processPage pd now kw maxM cnt ms).cnt).requests,
                by simp [searchGo, ha, hiv, hpe, hst, hc]⟩
            · exact ⟨[], by simp [searchGo, ha, hiv, hpe, hst, hc]⟩
    | null => exact ⟨[], by simp [searchGo, ha]⟩
    | bool b => exact ⟨[], by simp [searchGo, ha]⟩
    | num q => exact ⟨[], by simp [searchGo, ha]⟩
    | str s => exact ⟨[], by simp [searchGo, ha]⟩
    | arr xs => exact ⟨[], by simp [searchGo, ha]⟩

/-- Helper: the search consults the transport only at the requests it
records; any transport agreeing on those requests produces the identical
outcome (so once the loop returns, later pages are never fetched). -/
theorem searchGo_agree (pd : List Char → Option PyDatetime) (now : Int)
    (kw : List (List Char)) (maxM : Nat) :
    ∀ fuel (api api' : Option JValue → JValue) cursor cnt,
      (∀ c ∈ (searchGo api pd now kw maxM fuel cursor cnt).requests, api' c = api c) →
      searchGo api' pd now kw maxM fuel cursor cnt =
        searchGo api pd now kw maxM fuel cursor cnt := by
  intro fuel
  induction fuel with
  | zero => intro api api' cursor cnt _; simp [searchGo]
  | succ fuel ih =>
    intro api api' cursor cnt h
    have hcur : api' cursor = api cursor := by
      apply h
      obtain ⟨t, ht⟩ := searchGo_requests_head api pd now kw maxM (fuel + 1) cursor cnt
        (Nat.succ_ne_zero fuel)
      rw [ht]
      exact List.mem_cons_self _ _
    cases ha : api cursor with
    | obj fields =>
      cases hiv : iterValues (dictGetD fields dataKey (.arr [])) with
      | none => simp [searchGo, ha, hcur, hiv]
      | some ms =>
        cases hpe : (processPage pd now kw maxM cnt ms).error with
        | some e => simp [searchGo, ha, hcur, hiv, hpe]
        | none =>
          cases hst : (processPage pd now kw maxM cnt ms).stop with
          | true => simp [searchGo, ha, hcur, hiv, hpe, hst]
          | false =>
            by_cases hc : truthy ((dictGet fields nextCursorKey).getD .null) = true
            · have hreq : (searchGo api pd now kw maxM (fuel + 1) cursor cnt).requests
                  = cursor :: (searchGo api pd now kw maxM fuel
                      (some ((dictGet fields nextCursorKey).getD .null))
                      (processPage pd now kw maxM cnt ms).cnt).requests := by
                simp [searchGo, ha, hiv, hpe, hst, hc]
              have hsub : ∀ c ∈ (searchGo api pd now kw maxM fuel
                  (some ((dictGet fields nextCursorKey).getD .null))
                  (processPage pd now kw maxM cnt ms).cnt).requests, api' c = api c := by
                intro c hcm
                apply h
                rw [hreq]
                exact List.mem_cons_of_mem _ hcm
              have hrec := ih api api'
                (some ((dictGet fields nextCursorKey).getD .null))
                (processPage pd now kw maxM cnt ms).cnt hsub
              simp [searchGo, ha, hcur, hiv, hpe, hst, hc, hrec]
            · simp [searchGo, ha, hcur, hiv, hpe, hst, hc]
    | null => simp [searchGo, ha, hcur]
    | bool b => simp [searchGo, ha, hcur]
    | num q => simp [searchGo, ha, hcur]
    | str s => simp [searchGo, ha, hcur]
    | arr xs => simp [searchGo, ha, hcur]

/-- Helper: consecutive page requests are always linked by a truthy
`next_cursor` from the previous response. -/
theorem searchGo_chain (api : Option JValue → JValue)
    (pd : List Char → Option PyDatetime) (now : Int) (kw : List (List Char)) (maxM : Nat) :
    ∀ fuel cursor cnt,
      List.Chain' (cursorStep api)
        (searchGo api pd now kw maxM fuel cursor cnt).requests := by
  intro fuel
  induction fuel with
  | zero => intro cursor cnt; simp [searchGo]
  | succ fuel ih =>
    intro cursor cnt
    cases ha : api cursor with
    | obj fields =>
      cases hiv : iterValues (dictGetD fields dataKey (.arr [])) with
      | none => simp [searchGo, ha, hiv]
      | some ms =>
        cases hpe : (processPage pd now kw maxM cnt ms).error with
        | some e => simp [searchGo, ha, hiv, hpe]
        | none =>
          cases hst : (processPage pd now kw maxM cnt ms).stop with
          | true => simp [searchGo, ha, hiv, hpe, hst]
          | false =>
            by_cases hc : truthy ((dictGet fields nextCursorKey).getD .null) = true
            · have hreq : (searchGo api pd now kw maxM (fuel + 1) cursor cnt).requests
                  = cursor :: (searchGo api pd now kw maxM fuel
                      (some ((dictGet fields nextCursorKey).getD .null))
                      (processPage pd now kw maxM cnt ms).cnt).requests := by
                simp [searchGo, ha, hiv, hpe, hst, hc]
              rw [hreq]
              cases fuel with
              | zero => simp [searchGo]
              | succ fuel' =>
                obtain ⟨t, ht⟩ := searchGo_requests_head api pd now kw maxM (fuel' + 1)
                  (some ((dictGet fields nextCursorKey).getD .null))
                  (processPage pd now kw maxM cnt ms).cnt (Nat.succ_ne_zero fuel')
                have ihc := ih (some ((dictGet fields nextCursorKey).getD .null))
                  (processPage pd now kw maxM cnt ms).cnt
                rw [ht] at ihc ⊢
                exact List.chain'_cons.mpr ⟨⟨fields, ha, hc, rfl⟩, ihc⟩
            · simp [searchGo, ha, hiv, hpe, hst, hc]
    | null => simp [searchGo, ha]
    | bool b => simp [searchGo, ha]
    | num q => simp [searchGo, ha]
    | str s => simp [searchGo, ha]
    | arr xs => simp [searchGo, ha]

/-- C1: for every transport behaviour and every positive `max_matches` and
`max_pages`, the search renders at most `max_matches` records and issues at
most `max_pages` page fetches (the budget is enforced by the loop condition
checked before each fetch); once the match count reaches `max_matches` the
loop returns immediately — records appended after that point on the same
page are never examined, and no transport behaviour at unrequested cursors
(in particular, later pages) can change the outcome. -/
theorem C1_bounds_and_short_circuit (api : Option JValue → JValue)
    (pd : List Char → Option PyDatetime) (now : Int) (kw : List (List Char))
    (maxM maxP : Nat) (hm : 0 < maxM) (hp : 0 < maxP) :
    (find_markets api pd now kw maxM maxP).rendered.length ≤ maxM ∧
    (find_markets api pd now kw maxM maxP).requests.length ≤ maxP ∧
    (∀ cnt ms extra, (processPage pd now kw maxM cnt ms).stop = true →
      processPage pd now kw maxM cnt (ms ++ extra) =
        processPage pd now kw maxM cnt ms) ∧
    (∀ api', (∀ c ∈ (find_markets api pd now kw maxM maxP).requests, api' c = api c) →
      find_markets api' pd now kw maxM maxP = find_markets api pd now kw maxM maxP) := by
  refine ⟨?_, ?_, ?_, ?_⟩
  · have := searchGo_rendered_le api pd now kw maxM maxP none 0 hm
    simpa [find_markets] using this
  · simpa [find_markets] using searchGo_requests_le api pd now kw maxM maxP none 0
  · exact fun cnt ms extra hstop => processPage_stop_append pd now kw maxM ms cnt extra hstop
  · intro api' h
    simpa [find_markets] using searchGo_agree pd now kw maxM maxP api api' none 0
      (by simpa [find_markets] using h)

/-- Witness for C1 at a concrete transport and positive bounds. -/
theorem C1_bounds_and_short_circuit_witness :
    (0 < 1 ∧ 0 < 1) ∧
    (find_markets (fun _ => JValue.null) (fun _ => none) 0 [] 1 1).rendered.length ≤ 1 ∧
    (find_markets (fun _ => JValue.null) (fun _ => none) 0 [] 1 1).requests.length ≤ 1 :=
  ⟨⟨Nat.one_pos, Nat.one_pos⟩,
   (C1_bounds_and_short_circuit (fun _ => JValue.null) (fun _ => none) 0 [] 1 1
     Nat.one_pos Nat.one_pos).1,
   (C1_bounds_and_short_circuit (fun _ => JValue.null) (fun _ => none) 0 [] 1 1
     Nat.one_pos Nat.one_pos).2.1⟩

/-- C9: for every transport behaviour the loop terminates within the page
budget — it issues at most `max_pages` fetches — and every fetch after the
first is justified by a truthy `next_cursor` in the previous response, so
the loop stops as soon as a fetched page's `next_cursor` is absent or
empty. -/
theorem C9_termination_and_cursor_chain (api : Option JValue → JValue)
    (pd : List Char → Option PyDatetime) (now : Int) (kw : List (List Char))
    (maxM maxP : Nat) :
    (find_markets api pd now kw maxM maxP).requests.length ≤ maxP ∧
    List.Chain' (cursorStep api) (find_markets api pd now kw maxM maxP).requests := by
  constructor
  · simpa [find_markets] using searchGo_requests_le api pd now kw maxM maxP none 0
  · simpa [find_markets] using searchGo_chain api pd now kw maxM maxP none 0

end PolyArb
